import Mathlib

/-!
Shallow embedding of the pagination-driven collection engine of the
go-letterboxd scraping client, together with proofs about the claims of
its specification.

Conventions of the embedding:
* Go `int` becomes `Int`; Go integer division (which truncates toward
  zero) is written `Int.tdiv`; in every use below both operands are
  non-negative, where `Int.tdiv` agrees with Go.
* goquery DOM lookups are embedded as reads of a `PageDoc` structure that
  holds exactly the query results the detector inspects (the list of
  `div.paginate-pages li` entries, the parsed `There are N` counts of the
  `p.ui-block-heading` elements, and the parsed next/previous links of the
  `div.pagination` blocks).  A text node that is an ellipsis or fails
  `strconv.Atoi` is `none`, since the Go code leaves the target field
  unchanged in both cases.
* Fallible Go functions returning `(T, error)` become `Option`/`Except`.
* Network lookups are passed in as function arguments (the fetcher), so
  the orchestration logic stays executable and deterministic.
-/

namespace Letterboxd

/-- Pagination struct from pagination.go: current/next/total page counters,
item totals and the is-last flag. -/
structure Pagination where
  CurrentPage : Int := 0
  NextPage : Int := 0
  TotalPages : Int := 0
  TotalItems : Int := 0
  ItemsPerPage : Int := 0
  IsLast : Bool := false
deriving Repr, DecidableEq

/-- From pagination.go, `func (p *Pagination) complete()`: if the current
page equals the total page count, mark the pagination as last; otherwise
set the next page to the current page plus one. -/
def Pagination.complete (p : Pagination) : Pagination :=
  if p.CurrentPage = p.TotalPages then
    { p with IsLast := true }
  else
    { p with NextPage := p.CurrentPage + 1 }

/-- From pagination.go, `func (p *Pagination) SetTotalItems(i int)`: store
the total item count and, when an items-per-page size is known, recompute
`TotalPages` as `TotalItems/ItemsPerPage + 1` (Go integer division). -/
def Pagination.SetTotalItems (p : Pagination) (i : Int) : Pagination :=
  let q := { p with TotalItems := i }
  if q.ItemsPerPage ≠ 0 then
    { q with TotalPages := Int.tdiv q.TotalItems q.ItemsPerPage + 1 }
  else
    q

/-- One `li` element below `div.paginate-pages`: whether it carries the
`paginate-current` / `paginate-page` classes, and the page number its text
parses to (`none` for the ellipsis placeholder or unparseable text). -/
structure PaginateLi where
  isCurrent : Bool
  isPage : Bool
  val : Option Int
deriving Repr, DecidableEq

/-- One `div.pagination` block: `nextPage` is `some n` exactly when the
first `a.next` link has text `Next`, an `href`, and `pageWithURL` parses
page `n` from it; `prevPage` likewise for the first `a.previous` link with
text `Previous`.  All failure modes (wrong text, missing href, unparseable
page) collapse to `none`, since each makes the Go parser return without
touching the pagination. -/
structure PaginationDiv where
  nextPage : Option Int
  prevPage : Option Int
deriving Repr, DecidableEq

/-- The parsed page, restricted to exactly the DOM query results the
pagination detector reads. -/
structure PageDoc where
  paginateLis : List PaginateLi
  blockHeadingCounts : List (Option Int)
  paginationDivs : List PaginationDiv
deriving Repr, DecidableEq

/-- From pagination.go, `parsePaginateCurrent`: on an `li` with class
`paginate-current` whose text parses to a number, set both the current
page and (provisionally) the total page count to it. -/
def parsePaginateCurrent (s : PaginateLi) (p : Pagination) : Pagination :=
  if s.isCurrent then
    match s.val with
    | some curP => { p with CurrentPage := curP, TotalPages := curP }
    | none => p
  else p

/-- From pagination.go, `parsePaginatePage`: on an `li` with class
`paginate-page` whose text parses to a number, set the total page count
to it. -/
def parsePaginatePage (s : PaginateLi) (p : Pagination) : Pagination :=
  if s.isPage then
    match s.val with
    | some totP => { p with TotalPages := totP }
    | none => p
  else p

/-- From pagination.go, `paginationIfCurrent`: succeed only if a current
page was detected. -/
def paginationIfCurrent (p : Pagination) : Option Pagination :=
  if p.CurrentPage = 0 then none else some p

/-- From pagination.go, `paginationFromDivPaginatePages`: walk the
`div.paginate-pages li` entries in document order, applying
`parsePaginateCurrent` then `parsePaginatePage` to each. -/
def paginationFromDivPaginatePages (doc : PageDoc) : Option Pagination :=
  paginationIfCurrent
    (doc.paginateLis.foldl (fun p s => parsePaginatePage s (parsePaginateCurrent s p)) {})

/-- From pagination.go, `parseDivPaginationNext`: when the block has a
parsed `Next` link to page `n`, the current page is `n - 1`, and the next
page is set to `n` if not already set. -/
def Pagination.parseDivPaginationNext (p : Pagination) (s : PaginationDiv) : Pagination :=
  match s.nextPage with
  | some pageNo =>
      let p := { p with CurrentPage := pageNo - 1 }
      if p.NextPage = 0 then { p with NextPage := pageNo } else p
  | none => p

/-- From pagination.go, `parseDivPaginationPrevious`: when the block has a
parsed `Previous` link to page `n`, the current page is `n + 1`. -/
def Pagination.parseDivPaginationPrevious (p : Pagination) (s : PaginationDiv) : Pagination :=
  match s.prevPage with
  | some pageNo => { p with CurrentPage := pageNo + 1 }
  | none => p

/-- From pagination.go, `parseDivPagination`: apply the next- then the
previous-link parser to every `div.pagination` block in order. -/
def Pagination.parseDivPagination (p : Pagination) (doc : PageDoc) : Pagination :=
  doc.paginationDivs.foldl
    (fun p s => (p.parseDivPaginationNext s).parseDivPaginationPrevious s) p

/-- From pagination.go, `paginationFromBlockHeading`: seed with the fixed
page size 72; for each `p.ui-block-heading` whose text matches
`There are (N)`, call `SetTotalItems N` and then read the next/previous
navigation links. -/
def paginationFromBlockHeading (doc : PageDoc) : Option Pagination :=
  paginationIfCurrent
    (doc.blockHeadingCounts.foldl
      (fun p c =>
        match c with
        | some count => (p.SetTotalItems count).parseDivPagination doc
        | none => p)
      { ItemsPerPage := 72 })

/-- From pagination.go, `paginationWithDoc`: try the explicit page-list
strategy, then the item-count heading strategy; the first to report a
current page wins and is finished off with `complete`. -/
def paginationWithDoc (doc : PageDoc) : Option Pagination :=
  match paginationFromDivPaginatePages doc with
  | some p => some p.complete
  | none =>
    match paginationFromBlockHeading doc with
    | some p => some p.complete
    | none => none

/-- From pagination.go, `ExtractPaginationWithDoc`: same as
`paginationWithDoc`, with the detection failure re-worded (the error text
carries no further structure, so failure is `none` here). -/
def ExtractPaginationWithDoc (doc : PageDoc) : Option Pagination :=
  paginationWithDoc doc

/-- External film IDs struct from film.go. -/
structure ExternalFilmIDs where
  IMDB : String := ""
  TMDB : String := ""
deriving Repr, DecidableEq

/-- Film struct from film.go. -/
structure Film where
  ID : String := ""
  Title : String := ""
  Slug : String := ""
  Target : String := ""
  Year : Int := 0
  ExternalIDs : Option ExternalFilmIDs := none
deriving Repr, DecidableEq

/-- The single-page fallback pagination that `ExtractUserFilms` substitutes
when no pagination markup is found. -/
def fallbackPagination : Pagination :=
  { CurrentPage := 1, NextPage := 1, TotalPages := 1, IsLast := true }

/-- From user.go, `ExtractUserFilms`: the item-level extraction
(`previewsWithDoc`, which never fails on a parsed document) yields
`previews`; pagination is extracted from the same bytes (via
`ExtractPaginationWithReader`, a reader-level wrapper whose document-level
body is `ExtractPaginationWithDoc`), and on detection failure the
single-page fallback `{currentPage:1, nextPage:1, totalPages:1,
isLast:true}` is substituted with a nil error. -/
def ExtractUserFilms (previews : List Film) (doc : PageDoc) :
    List Film × Pagination × Option String :=
  match ExtractPaginationWithDoc doc with
  | some pagination => (previews, pagination, none)
  | none => (previews, fallbackPagination, none)

/-- From film.go, `EnhanceFilm`: given a film and the outcome of the
secondary lookup `f.Get(ctx, film.Slug)` (passed in as the function
`get`), fail when the film has no slug, fail when the lookup fails, and
otherwise fill in `Year`, `Title`, `ExternalIDs` and `ID` only when they
are zero-valued. -/
def EnhanceFilm (get : String → Except String Film) (film : Film) : Except String Film :=
  if film.Slug = "" then
    .error "Film has no slug. Needs that to enhance"
  else
    match get film.Slug with
    | .error _ => .error "Failed to get film for enhancement"
    | .ok fullFilm =>
      let film := if film.Year = 0 then { film with Year := fullFilm.Year } else film
      let film := if film.Title = "" then { film with Title := fullFilm.Title } else film
      let film :=
        if film.ExternalIDs = none then { film with ExternalIDs := fullFilm.ExternalIDs } else film
      let film := if film.ID = "" then { film with ID := fullFilm.ID } else film
      .ok film

/-- FilmographyOpt struct from film.go. -/
structure FilmographyOpt where
  Person : String := ""
  Profession : String := ""
deriving Repr, DecidableEq

/-- From film.go, `GetFilmographyProfessions`: the allowed professions. -/
def GetFilmographyProfessions : List String :=
  ["actor", "director", "producer", "writer"]

/-- Helper `StringInSlice` from the repository utilities: membership test
over a string slice. -/
def StringInSlice (a : String) (list : List String) : Bool :=
  list.any (fun b => b = a)

/-- From film.go, `(f *FilmographyOpt) Validate`: person required,
profession required, profession must be an allowed one.  `some msg` is the
validation error, `none` is success. -/
def FilmographyOpt.Validate (f : FilmographyOpt) : Option String :=
  if f.Person = "" then
    some "Person is required"
  else if f.Profession = "" then
    some "Profession is required"
  else if ¬ StringInSlice f.Profession GetFilmographyProfessions then
    some "Profession must be one of the known professions"
  else
    none

/-- Outcome of the control flow of `Filmography` up to the first network
step: either it returns a validation error before any request is built,
or it proceeds to construct the GET request for the filmography URL. -/
inductive FilmographyOutcome where
  | invalid (msg : String)
  | requested (url : String)
deriving Repr, DecidableEq

/-- From film.go, `(f *FilmServiceOp) Filmography`: validate the options
first and return the validation error before `http.NewRequest` is reached;
otherwise construct the request URL `baseURL/profession/person`. -/
def Filmography (baseURL : String) (opt : FilmographyOpt) : FilmographyOutcome :=
  match opt.Validate with
  | some msg => .invalid msg
  | none => .requested (baseURL ++ "/" ++ opt.Profession ++ "/" ++ opt.Person)

/-- From film.go, `makeRange(min, max int)`: the list
`[min, min+1, ..., max]` (Go allocates `max-min+1` slots and fills them;
a negative length would panic in Go and yields `[]` here, a case no
caller reaches). -/
def makeRange (lo hi : Int) : List Int :=
  (List.range (hi - lo + 1).toNat).map (fun i : Nat => lo + (i : Int))

/-- From the repository utilities, `populateRemainingPages(count, total
int, shuffle bool)`: with `shuffle` false the result is
`makeRange(2, count+1)`; with `shuffle` true the Go code draws `count+1`
random page numbers in `[2, total]`, abstracted here by the oracle list
`randPages` (no claim below concerns the shuffled branch). -/
def populateRemainingPages (count total : Int) (shuffle : Bool) (randPages : List Int) :
    List Int :=
  if shuffle then randPages else makeRange 2 (count + 1)

/-- From film.go, `(f *FilmServiceOp) List`: the page numbers the
operation requests, as a function of `opts.PageCount` (clamped below by 1
via `max(opts.PageCount, 1)`) and the `TotalPages` reported by the first
page.  Page 1 is always fetched; the remaining pages are fetched only when
both the clamped page count and the reported total exceed 1. -/
def filmListPagesRequested (pageCountOpt totalPages : Int) : List Int :=
  let pageCount := max pageCountOpt 1
  if pageCount > 1 ∧ totalPages > 1 then
    1 :: populateRemainingPages pageCount totalPages false []
  else
    [1]

/-- Client struct from client.go (the fields the collection engine could
consult): the configured concurrency limit for page fetches. -/
structure Client where
  MaxConcurrentPages : Int
deriving Repr, DecidableEq

/-- Phase of one middle-page goroutine: spawned but not yet fetching,
fetch in flight, or finished. -/
inductive FetchPhase where
  | ready
  | inFlight
  | finished
deriving Repr, DecidableEq

/-- State of the middle-page fan-out of a collection stream: one entry per
middle page `2 .. totalPages-1`. -/
structure MiddleState where
  tasks : List FetchPhase
deriving Repr, DecidableEq

/-- Initial fan-out state: the `for i := 2; i < TotalPages; i++` loop
spawns one goroutine per middle page (a non-blocking `go` statement), so
all `totalPages - 2` tasks exist and none has started its fetch. -/
def middleInit (totalPages : Int) : MiddleState :=
  ⟨List.replicate (totalPages - 2).toNat .ready⟩

/-- Predicate for a fetch currently in flight. -/
def isInFlight : FetchPhase → Bool
  | .inFlight => true
  | _ => false

/-- Number of middle-page fetches currently in flight. -/
def inFlightCount (s : MiddleState) : Nat :=
  s.tasks.countP isInFlight

/-- Step relation of the middle-page fan-out in `StreamWatched`
(user.go; the same block appears verbatim in `StreamList`,
`StreamWatchList` and `StreamDiary`): any spawned goroutine may begin its
fetch at any time — the goroutine body starts directly with the fetch,
guarded by no semaphore, and `client.MaxConcurrentPages` is read nowhere
in the loop — and any in-flight fetch may finish.  The `client` parameter
records the configuration the claims speak about; faithfully to the code,
no transition consults it. -/
inductive MiddleStep (client : Client) : MiddleState → MiddleState → Prop where
  | start (s : MiddleState) (i : Nat) (h : s.tasks[i]? = some .ready) :
      MiddleStep client s ⟨s.tasks.set i .inFlight⟩
  | finish (s : MiddleState) (i : Nat) (h : s.tasks[i]? = some .inFlight) :
      MiddleStep client s ⟨s.tasks.set i .finished⟩

/-- States of the middle-page fan-out reachable during a run against a
collection with the given total page count. -/
def MiddleReachable (client : Client) (totalPages : Int) (s : MiddleState) : Prop :=
  Relation.ReflTransGen (MiddleStep client) (middleInit totalPages) s

/-- Phase of one `EnhanceFilmList` worker goroutine: spawned (before
`guard <- struct{}{}`), holding a guard slot (running `EnhanceFilm`),
released (after `<-guard`, before the deferred `wg.Done()` runs), or
exited (after `wg.Done()`). -/
inductive EnhanceTask where
  | spawned
  | holding
  | released
  | exited
deriving Repr, DecidableEq

/-- State of one `EnhanceFilmList` call: the per-film worker phases and
the WaitGroup counter (initialised by `wg.Add(len(*films))` before any
worker runs). -/
structure EnhanceListState where
  tasks : List EnhanceTask
  wg : Nat
deriving Repr, DecidableEq

/-- Initial state of `EnhanceFilmList` over `n` films: all workers
spawned, WaitGroup counter `n`. -/
def enhanceListInit (n : Nat) : EnhanceListState :=
  ⟨List.replicate n .spawned, n⟩

/-- Predicate for a worker currently holding a guard slot. -/
def isHolding : EnhanceTask → Bool
  | .holding => true
  | _ => false

/-- Number of workers currently holding a slot of the `guard` channel,
i.e. running their `EnhanceFilm` call. -/
def holdingCount (s : EnhanceListState) : Nat :=
  s.tasks.countP isHolding

/-- Step relation of `EnhanceFilmList` (film.go): a spawned worker may
acquire a guard slot only while fewer than 5 are held (`guard` is a
buffered channel of capacity 5, so the send blocks otherwise); a holding
worker releases its slot when its `EnhanceFilm` call ends, whether it
succeeded or failed; a released worker then runs its deferred `wg.Done()`,
decrementing the counter.  Per-film errors alter no transition: they are
logged and dropped. -/
inductive EnhanceListStep : EnhanceListState → EnhanceListState → Prop where
  | acquire (s : EnhanceListState) (i : Nat) (h : s.tasks[i]? = some .spawned)
      (hlt : holdingCount s < 5) :
      EnhanceListStep s ⟨s.tasks.set i .holding, s.wg⟩
  | release (s : EnhanceListState) (i : Nat) (h : s.tasks[i]? = some .holding) :
      EnhanceListStep s ⟨s.tasks.set i .released, s.wg⟩
  | exit (s : EnhanceListState) (i : Nat) (h : s.tasks[i]? = some .released) :
      EnhanceListStep s ⟨s.tasks.set i .exited, s.wg - 1⟩

/-- States reachable during an `EnhanceFilmList` call over `n` films. -/
def EnhanceListReachable (n : Nat) (s : EnhanceListState) : Prop :=
  Relation.ReflTransGen EnhanceListStep (enhanceListInit n) s

/-- Return value of `EnhanceFilmList`: after `wg.Wait()` the function
returns `nil` unconditionally — the per-film results were logged and
dropped inside the workers. -/
def enhanceFilmListResult : Option String := none

/-- Events of a collection stream run: a page fetch being issued, an item
send on the item channel, a terminal-signal send on the done channel, and
an unrecovered runtime panic. -/
inductive StreamEvent where
  | fetch (page : Int)
  | itemSend (film : Film)
  | doneSend (err : Option String)
  | panicked
deriving Repr, DecidableEq

/-- Outcome of fetching and extracting one page: the films on it plus its
pagination, or an error. -/
abbrev FetchResult : Type := Except String (List Film × Pagination)

/-- Events of the middle-page phase (`TotalPages > 2` block): one
goroutine per page `2 .. totalPages-1`; each issues its fetch and, on
success, sends the page items; a middle-page error sends nothing (it is
logged and dropped, aborting nobody else).  The goroutines interleave
nondeterministically; this serialization fixes page order, which is
immaterial to the claims proved below (they constrain only the set of
events of this phase and the placement of done-signals, and this phase
sends no done-signal in any interleaving). -/
def middlePageEvents (fetchPage : Int → FetchResult) (totalPages : Int) : List StreamEvent :=
  (makeRange 2 (totalPages - 1)).flatMap (fun i =>
    .fetch i ::
      match fetchPage i with
      | .ok (films, _) => films.map .itemSend
      | .error _ => [])

/-- From user.go, `StreamWatched` (the same skeleton as `StreamList` and
`StreamWatchList`; `StreamDiary` differs in its fetch helper and is
modelled separately below), as the trace of events of one run,
parametrised by the fetcher (`ExtractEnhancedFilmsWithPath` applied to the
page URL).  The translation follows the control flow literally:

* a deferred `done <- nil` always runs when the function returns;
* on a page-1 fetch error the code sends `done <- err` but does NOT
  return; `firstFilms` is nil, so no items are sent, and the next
  statement `pagination.TotalItems = itemsPerFullPage` dereferences the
  nil `pagination` and panics — the deferred `done <- nil` fires during
  unwinding and the unrecovered panic then kills the run, so no further
  page is fetched;
* on a last-page fetch error the code sends `done <- err` and again does
  not return: `lastFilms` is empty and execution falls through to the
  middle pages and the deferred nil send;
* channel sends are recorded as events (the consumer is assumed to drain
  both channels; the total-item accounting touches no channel and is
  omitted). -/
def StreamWatched (fetchPage : Int → FetchResult) : List StreamEvent :=
  .fetch 1 ::
    match fetchPage 1 with
    | .error e => [.doneSend (some e), .doneSend none, .panicked]
    | .ok (firstFilms, pagination) =>
        firstFilms.map .itemSend
        ++ (if pagination.TotalPages > 1 then
              .fetch pagination.TotalPages ::
                match fetchPage pagination.TotalPages with
                | .error e => [.doneSend (some e)]
                | .ok (lastFilms, _) => lastFilms.map .itemSend
            else [])
        ++ (if pagination.TotalPages > 2 then
              middlePageEvents fetchPage pagination.TotalPages
            else [])
        ++ [StreamEvent.doneSend none]

/-- The sequence of terminal signals a trace sends on the done channel. -/
def doneSignals (trace : List StreamEvent) : List (Option String) :=
  trace.filterMap (fun ev =>
    match ev with
    | .doneSend e => some e
    | _ => none)

/-- Middle-page events of `StreamDiary` (serialized in page order, with the
trace truncated at the first failure): each diary middle-page goroutine
calls `extractDiaryEntryWithPath`, whose `defer dclose(resp.Body)`
evaluates `resp.Body` on the nil response of a failed fetch and panics, so
a middle-page fetch error kills the process from inside a child goroutine
(the orchestrator's deferred nil send does not run).  The boolean records
whether the phase panicked. -/
def diaryMiddleEvents (fetchPage : Int → FetchResult) :
    List Int → List StreamEvent × Bool
  | [] => ([], false)
  | i :: rest =>
      match fetchPage i with
      | .ok (entries, _) =>
          let r := diaryMiddleEvents fetchPage rest
          (.fetch i :: (entries.map .itemSend ++ r.1), r.2)
      | .error _ => ([.fetch i, .panicked], true)

/-- From user.go, `StreamDiary`, as the trace of events of one run.  It
follows the `StreamWatched` skeleton with one decisive difference: its
page fetcher `extractDiaryEntryWithPath` registers
`defer dclose(resp.Body)` before checking the fetch error, so on a failed
fetch it dereferences the nil response and panics instead of returning
the error.  Hence on a page-1 (or last-page) fetch failure no
`done <- err` is ever reached — only `StreamDiary`'s own deferred
`done <- nil` fires during the unwinding, and the run crashes; a failed
middle page panics inside a child goroutine and kills the process with no
terminal signal at all. -/
def StreamDiary (fetchPage : Int → FetchResult) : List StreamEvent :=
  .fetch 1 ::
    match fetchPage 1 with
    | .error _ => [.doneSend none, .panicked]
    | .ok (firstEntries, pagination) =>
        firstEntries.map .itemSend
        ++ (if pagination.TotalPages > 1 then
              .fetch pagination.TotalPages ::
                match fetchPage pagination.TotalPages with
                | .error _ => [.doneSend none, .panicked]
                | .ok (lastEntries, _) =>
                    lastEntries.map .itemSend
                    ++ (if pagination.TotalPages > 2 then
                          let r := diaryMiddleEvents fetchPage
                            (makeRange 2 (pagination.TotalPages - 1))
                          r.1 ++ (if r.2 then [] else [StreamEvent.doneSend none])
                        else [StreamEvent.doneSend none])
            else
              (if pagination.TotalPages > 2 then
                  let r := diaryMiddleEvents fetchPage
                    (makeRange 2 (pagination.TotalPages - 1))
                  r.1 ++ (if r.2 then [] else [StreamEvent.doneSend none])
                else [StreamEvent.doneSend none]))

/-- Events a sub-stream may produce before its first terminal signal on a
successful run: page fetches and item sends (no done-signal, no panic). -/
def relayEvent : StreamEvent → Bool
  | .fetch _ => true
  | .itemSend _ => true
  | _ => false

/-- From film.go, `loopFilmC`: relay every item the sub-stream sends onto
the shared output channel until the FIRST signal on the sub-stream's done
channel; a non-nil signal is forwarded onto the shared done channel, a
nil one is not, and either way the loop exits, so whatever the sub-stream
produces after its first terminal signal is never received (its later
sends block forever).  Fetches are the sub-stream's internal actions and
pass through as events of the run; a sub-stream that panics before its
first terminal signal kills the process. -/
def loopFilmC : List StreamEvent → List StreamEvent
  | [] => []
  | .fetch p :: rest => .fetch p :: loopFilmC rest
  | .itemSend f :: rest => .itemSend f :: loopFilmC rest
  | .doneSend none :: _ => []
  | .doneSend (some e) :: _ => [.doneSend (some e)]
  | .panicked :: _ => [.panicked]

/-- A fetcher on which a collection stream runs cleanly: page 1 succeeds
and, when more than one page is reported, so does the last page (middle
pages need not succeed — their errors are dropped). -/
def CleanFetcher (fp : Int → FetchResult) : Prop :=
  ∃ films pag, fp 1 = Except.ok (films, pag) ∧
    (1 < Pagination.TotalPages pag →
      ∃ r, fp (Pagination.TotalPages pag) = Except.ok r)

/-- From film.go, `StreamBatch`, as the trace of events of one run: the
three request categories (watched users, lists, watchlist users) are
iterated sequentially; each entry spawns its collection stream —
`StreamWatched`, `StreamList` or `StreamWatchList`, all three the
`StreamWatched` skeleton, each entry contributing its own fetcher — and is
relayed by `loopFilmC`; the deferred `done <- nil` fires when the batch
returns after the last category. -/
def StreamBatch (watched lists watchlists : List (Int → FetchResult)) :
    List StreamEvent :=
  watched.flatMap (fun fp => loopFilmC (StreamWatched fp))
  ++ lists.flatMap (fun fp => loopFilmC (StreamWatched fp))
  ++ watchlists.flatMap (fun fp => loopFilmC (StreamWatched fp))
  ++ [StreamEvent.doneSend none]

/-- Worker predicate: true for every phase other than `exited`, i.e. for
workers whose deferred `wg.Done()` has not yet run. -/
def notExited : EnhanceTask → Bool
  | .exited => false
  | _ => true

/-- Concrete page for claim C4: no explicit page list, one heading
announcing 100 items, one navigation block with only a Previous link to
page 1 (so the page is page 2 of 2). -/
def docC4 : PageDoc :=
  ⟨[], [some 100], [⟨none, some 1⟩]⟩

/-- The pagination the detector produces on `docC4`. -/
def pagC4 : Pagination :=
  { CurrentPage := 2, NextPage := 0, TotalPages := 2, TotalItems := 100,
    ItemsPerPage := 72, IsLast := true }

/-- Second concrete page for claim C4: one heading announcing 72 items
(so two 72-item pages are reported) and one navigation block whose Next
link points at page 3, making page 2 the current — and, by the count,
last — page. -/
def docC4b : PageDoc :=
  ⟨[], [some 72], [⟨some 3, none⟩]⟩

/-- The pagination the detector produces on `docC4b`: `IsLast` is true
while `NextPage` keeps the value 3 taken from the Next link. -/
def pagC4b : Pagination :=
  { CurrentPage := 2, NextPage := 3, TotalPages := 2, TotalItems := 72,
    ItemsPerPage := 72, IsLast := true }

/-- Concrete page for claim C8: one heading announcing exactly 72 items
(one full page), one navigation block with a Next link to page 2. -/
def docC8 : PageDoc :=
  ⟨[], [some 72], [⟨some 2, none⟩]⟩

/-- Concrete fetcher for the claim C3 witness: every page fetch fails. -/
def fetchC3 : Int → FetchResult := fun _ => .error "nope"

/-- Concrete fetcher for the claim C2 witness: a clean single-page
collection. -/
def fetchC2w : Int → FetchResult := fun _ =>
  .ok ([{ Title := "w" }],
    { CurrentPage := 1, NextPage := 1, TotalPages := 1, IsLast := true })

/-- Concrete film for the claim C6 witness: slug and title already set,
year, id and external ids unset. -/
def filmC6 : Film := { Slug := "the-film", Title := "Caller Title" }

/-- Concrete secondary-lookup result for the claim C6 witness: a
different title, plus year, id and external ids. -/
def fullC6 : Film :=
  { Slug := "the-film", Title := "Lookup Title", Year := 1999, ID := "42",
    ExternalIDs := some { IMDB := "tt1", TMDB := "7" } }

/-- Concrete lookup function for the claim C6 witness. -/
def getC6 : String → Except String Film := fun _ => .ok fullC6

/-- The pagination the item-count heading strategy produces on `docC8`. -/
def pagC8 : Pagination :=
  { CurrentPage := 1, NextPage := 2, TotalPages := 2, TotalItems := 72,
    ItemsPerPage := 72, IsLast := false }

/-- Concrete page for the claim C8 witness: a heading announcing 100 items
and a Next link to page 2. -/
def docC8w : PageDoc :=
  ⟨[], [some 100], [⟨some 2, none⟩]⟩

/-- The pagination the item-count heading strategy produces on `docC8w`. -/
def pagC8w : Pagination :=
  { CurrentPage := 1, NextPage := 2, TotalPages := 2, TotalItems := 100,
    ItemsPerPage := 72, IsLast := false }

/-- Concrete fetcher for claim C2: page 1 holds one film and reports 3
total pages, the last page (3) fails to fetch, the middle page (2) holds
one film. -/
def fetchC2 : Int → FetchResult := fun i =>
  if i = 1 then
    .ok ([{ Title := "a" }], { CurrentPage := 1, NextPage := 2, TotalPages := 3 })
  else if i = 3 then
    .error "boom"
  else
    .ok ([{ Title := "b" }], { CurrentPage := 2, NextPage := 3, TotalPages := 3 })

/-! ## Lemmas about the pagination detector -/

theorem parsePaginateCurrent_IsLast (s : PaginateLi) (p : Pagination) :
    (parsePaginateCurrent s p).IsLast = p.IsLast := by
  unfold parsePaginateCurrent
  split
  · cases s.val <;> rfl
  · rfl

theorem parsePaginatePage_IsLast (s : PaginateLi) (p : Pagination) :
    (parsePaginatePage s p).IsLast = p.IsLast := by
  unfold parsePaginatePage
  split
  · cases s.val <;> rfl
  · rfl

theorem foldPaginateLis_IsLast (lis : List PaginateLi) :
    ∀ p : Pagination,
      (lis.foldl (fun p s => parsePaginatePage s (parsePaginateCurrent s p)) p).IsLast
        = p.IsLast := by
  induction lis with
  | nil => intro p; rfl
  | cons x xs ih =>
      intro p
      rw [List.foldl_cons, ih, parsePaginatePage_IsLast, parsePaginateCurrent_IsLast]

theorem SetTotalItems_fields (p : Pagination) (i : Int) :
    (p.SetTotalItems i).IsLast = p.IsLast ∧
    (p.SetTotalItems i).CurrentPage = p.CurrentPage ∧
    (p.SetTotalItems i).NextPage = p.NextPage ∧
    (p.SetTotalItems i).ItemsPerPage = p.ItemsPerPage := by
  unfold Pagination.SetTotalItems
  dsimp only
  split <;> exact ⟨rfl, rfl, rfl, rfl⟩

theorem parseDivPaginationNext_fields (p : Pagination) (s : PaginationDiv) :
    (p.parseDivPaginationNext s).IsLast = p.IsLast ∧
    (p.parseDivPaginationNext s).TotalPages = p.TotalPages ∧
    (p.parseDivPaginationNext s).TotalItems = p.TotalItems ∧
    (p.parseDivPaginationNext s).ItemsPerPage = p.ItemsPerPage := by
  unfold Pagination.parseDivPaginationNext
  cases s.nextPage with
  | none => exact ⟨rfl, rfl, rfl, rfl⟩
  | some pageNo =>
      simp only
      split <;> exact ⟨rfl, rfl, rfl, rfl⟩

theorem parseDivPaginationPrevious_fields (p : Pagination) (s : PaginationDiv) :
    (p.parseDivPaginationPrevious s).IsLast = p.IsLast ∧
    (p.parseDivPaginationPrevious s).TotalPages = p.TotalPages ∧
    (p.parseDivPaginationPrevious s).TotalItems = p.TotalItems ∧
    (p.parseDivPaginationPrevious s).ItemsPerPage = p.ItemsPerPage := by
  unfold Pagination.parseDivPaginationPrevious
  cases s.prevPage with
  | none => exact ⟨rfl, rfl, rfl, rfl⟩
  | some pageNo => exact ⟨rfl, rfl, rfl, rfl⟩

theorem parseDivPagination_fields (doc : PageDoc) :
    ∀ p : Pagination,
      (p.parseDivPagination doc).IsLast = p.IsLast ∧
      (p.parseDivPagination doc).TotalPages = p.TotalPages ∧
      (p.parseDivPagination doc).TotalItems = p.TotalItems ∧
      (p.parseDivPagination doc).ItemsPerPage = p.ItemsPerPage := by
  unfold Pagination.parseDivPagination
  induction doc.paginationDivs with
  | nil => intro p; exact ⟨rfl, rfl, rfl, rfl⟩
  | cons d ds ih =>
      intro p
      rw [List.foldl_cons]
      have h1 := parseDivPaginationNext_fields p d
      have h2 := parseDivPaginationPrevious_fields (p.parseDivPaginationNext d) d
      have h3 := ih ((p.parseDivPaginationNext d).parseDivPaginationPrevious d)
      exact ⟨by rw [h3.1, h2.1, h1.1], by rw [h3.2.1, h2.2.1, h1.2.1],
        by rw [h3.2.2.1, h2.2.2.1, h1.2.2.1], by rw [h3.2.2.2, h2.2.2.2, h1.2.2.2]⟩

theorem foldBlockHeading_IsLast (doc : PageDoc) (counts : List (Option Int)) :
    ∀ p : Pagination,
      (counts.foldl
          (fun p c =>
            match c with
            | some count => (p.SetTotalItems count).parseDivPagination doc
            | none => p)
          p).IsLast = p.IsLast := by
  induction counts with
  | nil => intro p; rfl
  | cons c cs ih =>
      intro p
      rw [List.foldl_cons]
      cases c with
      | none => exact ih p
      | some count =>
          rw [ih, (parseDivPagination_fields doc (p.SetTotalItems count)).1,
            (SetTotalItems_fields p count).1]

theorem paginationIfCurrent_eq (p q : Pagination) (h : paginationIfCurrent p = some q) :
    q = p := by
  unfold paginationIfCurrent at h
  split at h
  · exact absurd h (by simp)
  · exact (Option.some.inj h).symm

theorem paginationFromDivPaginatePages_IsLast (doc : PageDoc) (p : Pagination)
    (h : paginationFromDivPaginatePages doc = some p) : p.IsLast = false := by
  unfold paginationFromDivPaginatePages at h
  rw [paginationIfCurrent_eq _ _ h, foldPaginateLis_IsLast]

theorem paginationFromBlockHeading_IsLast (doc : PageDoc) (p : Pagination)
    (h : paginationFromBlockHeading doc = some p) : p.IsLast = false := by
  unfold paginationFromBlockHeading at h
  rw [paginationIfCurrent_eq _ _ h, foldBlockHeading_IsLast]

theorem complete_invariant (p : Pagination) (h : p.IsLast = false) :
    (p.complete.IsLast = true ↔ p.complete.CurrentPage = p.complete.TotalPages) ∧
    (p.complete.CurrentPage ≠ p.complete.TotalPages →
      p.complete.NextPage = p.complete.CurrentPage + 1) := by
  unfold Pagination.complete
  split
  case isTrue hc =>
    exact ⟨by simp [hc], fun hne => absurd hc hne⟩
  case isFalse hc =>
    refine ⟨?_, fun _ => rfl⟩
    constructor
    · intro habs
      exact absurd (h ▸ habs) (by simp)
    · intro heq
      exact absurd heq hc

/-- Claim C4, amended: every Pagination the detector produces satisfies
`isLast = true` iff `currentPage = totalPages`, and `nextPage =
currentPage + 1` whenever `currentPage ≠ totalPages`.  The original
claim demanded two further things, each refuted by the counterexample:
that `nextPage` be 0/absent whenever `isLast` — but a detector output
itself can carry `isLast = true` with the nonzero `nextPage` taken from a
Next link (`docC4b`) — and that the invariant survive a subsequent
`SetTotalItems`, which recomputes `totalPages` without touching `isLast`
or `nextPage` (`docC4`). -/
theorem claim_C4_amended (doc : PageDoc) (p : Pagination)
    (h : paginationWithDoc doc = some p) :
    (p.IsLast = true ↔ p.CurrentPage = p.TotalPages) ∧
    (p.CurrentPage ≠ p.TotalPages → p.NextPage = p.CurrentPage + 1) := by
  unfold paginationWithDoc at h
  rcases h1 : paginationFromDivPaginatePages doc with _ | q
  · rw [h1] at h
    simp only at h
    rcases h2 : paginationFromBlockHeading doc with _ | q
    · rw [h2] at h; exact absurd h (by simp)
    · rw [h2] at h
      simp only [Option.some.injEq] at h
      subst h
      exact complete_invariant q (paginationFromBlockHeading_IsLast doc q h2)
  · rw [h1] at h
    simp only [Option.some.injEq] at h
    subst h
    exact complete_invariant q (paginationFromDivPaginatePages_IsLast doc q h1)

/-- Witness for claim C4 (amended): the detector on the concrete page
`docC4` yields `pagC4`, which satisfies the amended invariant. -/
theorem claim_C4_witness :
    paginationWithDoc docC4 = some pagC4 ∧
    ((pagC4.IsLast = true ↔ pagC4.CurrentPage = pagC4.TotalPages) ∧
      (pagC4.CurrentPage ≠ pagC4.TotalPages → pagC4.NextPage = pagC4.CurrentPage + 1)) :=
  ⟨by decide, claim_C4_amended docC4 pagC4 (by decide)⟩

/-- Counterexample to claim C4 as stated, in both of its refuted parts.
First, the `nextPage` is 0/absent whenever `isLast` conjunct fails on a
plain detector output: on `docC4b` (heading announcing 72 items, Next
link to page 3) the detector yields `pagC4b` with `isLast = true` and
`nextPage = 3`, because `complete()` leaves a `NextPage` already set by
the Next-link parser untouched on the last page.  Second, the invariant
does not survive `SetTotalItems`: the detector on `docC4` produces
`pagC4` (page 2 of 2, 100 items, 72 per page), and `SetTotalItems 300`
leaves `isLast = true` while `currentPage = 2 ≠ 5 = totalPages` and
`nextPage = 0 ≠ currentPage + 1`. -/
theorem claim_C4_counterexample :
    (paginationWithDoc docC4b = some pagC4b ∧
      pagC4b.IsLast = true ∧
      pagC4b.NextPage = 3 ∧
      pagC4b.NextPage ≠ 0) ∧
    (paginationWithDoc docC4 = some pagC4 ∧
      (pagC4.SetTotalItems 300).IsLast = true ∧
      (pagC4.SetTotalItems 300).CurrentPage ≠ (pagC4.SetTotalItems 300).TotalPages ∧
      (pagC4.SetTotalItems 300).CurrentPage < (pagC4.SetTotalItems 300).TotalPages ∧
      (pagC4.SetTotalItems 300).NextPage ≠ (pagC4.SetTotalItems 300).CurrentPage + 1) := by
  decide

/-! ## Claim C8: the item-count heading strategy -/

theorem SetTotalItems_of_itemsPerPage72 (p : Pagination) (hp : p.ItemsPerPage = 72) (i : Int) :
    (p.SetTotalItems i).TotalPages = Int.tdiv i 72 + 1 := by
  unfold Pagination.SetTotalItems
  dsimp only
  rw [hp]
  simp

theorem tdivPlusOne_bounds (N : Int) (hN : 1 ≤ N) :
    N ≤ (Int.tdiv N 72 + 1) * 72 ∧
    ((¬ (72 ∣ N)) → (Int.tdiv N 72 + 1 - 1) * 72 < N) ∧
    ((72 ∣ N) → ¬ ((Int.tdiv N 72 + 1 - 1) * 72 < N)) := by
  have ht : Int.tdiv N 72 = N / 72 := Int.tdiv_eq_ediv (by omega) (by norm_num)
  have hdvd : (72 : Int) ∣ N ↔ N % 72 = 0 := Int.dvd_iff_emod_eq_zero
  rw [ht, hdvd]
  omega

/-- Claim C8, amended: a heading announcing `N ≥ 1` items yields
`itemsPerPage = 72` and `totalPages = N/72 + 1` (Go floor division plus
one).  Consequently `totalPages * 72 ≥ N` always holds, but
`(totalPages - 1) * 72 < N` — i.e. `totalPages` being the exact ceiling
of `N/72` — holds exactly when 72 does not divide `N`; for multiples of
72 the strategy reports one page too many. -/
theorem claim_C8_amended (lis : List PaginateLi) (divs : List PaginationDiv) (N : Int)
    (p : Pagination) (hN : 1 ≤ N)
    (h : paginationFromBlockHeading ⟨lis, [some N], divs⟩ = some p) :
    p.ItemsPerPage = 72 ∧
    p.TotalPages = Int.tdiv N 72 + 1 ∧
    N ≤ p.TotalPages * 72 ∧
    ((¬ (72 ∣ N)) → (p.TotalPages - 1) * 72 < N) ∧
    ((72 ∣ N) → ¬ ((p.TotalPages - 1) * 72 < N)) := by
  unfold paginationFromBlockHeading at h
  rw [List.foldl_cons, List.foldl_nil] at h
  have hp := paginationIfCurrent_eq _ _ h
  have hseed : (Pagination.ItemsPerPage { ItemsPerPage := 72 } : Int) = 72 := rfl
  have hipp :
      p.ItemsPerPage = 72 := by
    rw [hp, (parseDivPagination_fields _ _).2.2.2,
      (SetTotalItems_fields { ItemsPerPage := 72 } N).2.2.2]
  have htp : p.TotalPages = Int.tdiv N 72 + 1 := by
    rw [hp, (parseDivPagination_fields _ _).2.1,
      SetTotalItems_of_itemsPerPage72 { ItemsPerPage := 72 } rfl N]
  refine ⟨hipp, htp, ?_, ?_, ?_⟩
  · rw [htp]; exact (tdivPlusOne_bounds N hN).1
  · rw [htp]; exact (tdivPlusOne_bounds N hN).2.1
  · rw [htp]; exact (tdivPlusOne_bounds N hN).2.2

/-- Witness for claim C8 (amended): for the concrete page `docC8w`
announcing 100 items, the strategy yields `pagC8w` with 72 items per page
and `100/72 + 1 = 2` total pages, and the stated bounds hold. -/
theorem claim_C8_witness :
    ((1 : Int) ≤ 100 ∧ paginationFromBlockHeading docC8w = some pagC8w) ∧
    (pagC8w.ItemsPerPage = 72 ∧
      pagC8w.TotalPages = Int.tdiv 100 72 + 1 ∧
      (100 : Int) ≤ pagC8w.TotalPages * 72 ∧
      ((¬ ((72 : Int) ∣ 100)) → (pagC8w.TotalPages - 1) * 72 < 100) ∧
      (((72 : Int) ∣ 100) → ¬ ((pagC8w.TotalPages - 1) * 72 < 100))) :=
  ⟨⟨by decide, by decide⟩, claim_C8_amended [] [⟨some 2, none⟩] 100 pagC8w (by decide) (by decide)⟩

/-- Counterexample to claim C8 as stated: a heading announcing N = 72
items (exactly one full page) yields `totalPages = 2`, not the ceiling
`⌈72/72⌉ = 1`; the required lower-bound inequality
`(totalPages - 1)*72 < N` fails. -/
theorem claim_C8_counterexample :
    paginationFromBlockHeading docC8 = some pagC8 ∧
    pagC8.TotalItems = 72 ∧
    pagC8.TotalPages = 2 ∧
    pagC8.TotalPages ≠ 1 ∧
    ¬ ((pagC8.TotalPages - 1) * 72 < 72) := by
  decide

/-! ## Claim C5: single-page fallback of ExtractUserFilms -/

/-- Claim C5: whenever the pagination detector fails on a page whose
item-level extraction succeeded, `ExtractUserFilms` returns the extracted
items together with the fallback pagination
`{currentPage:1, nextPage:1, totalPages:1, isLast:true}` and a nil
error. -/
theorem claim_C5_theorem (previews : List Film) (doc : PageDoc)
    (h : ExtractPaginationWithDoc doc = none) :
    ExtractUserFilms previews doc = (previews, fallbackPagination, none) ∧
    fallbackPagination.CurrentPage = 1 ∧
    fallbackPagination.NextPage = 1 ∧
    fallbackPagination.TotalPages = 1 ∧
    fallbackPagination.IsLast = true := by
  refine ⟨?_, rfl, rfl, rfl, rfl⟩
  unfold ExtractUserFilms
  rw [h]

/-- Witness for claim C5: a page with no pagination markup at all. -/
theorem claim_C5_witness :
    ExtractPaginationWithDoc ⟨[], [], []⟩ = none ∧
    (ExtractUserFilms [{ Title := "x" }] ⟨[], [], []⟩
        = ([{ Title := "x" }], fallbackPagination, none) ∧
      fallbackPagination.CurrentPage = 1 ∧
      fallbackPagination.NextPage = 1 ∧
      fallbackPagination.TotalPages = 1 ∧
      fallbackPagination.IsLast = true) :=
  ⟨by decide, claim_C5_theorem [{ Title := "x" }] ⟨[], [], []⟩ (by decide)⟩

/-! ## Claim C6: merge-if-absent enhancement -/

/-- Claim C6: when the film has a slug and the secondary lookup succeeds,
`EnhanceFilm` succeeds and the result keeps every populated field
(non-empty `Title`, non-zero `Year`, non-empty `ID`, non-nil
`ExternalIDs`, as well as `Slug` and `Target`) even when the lookup
returned different values, while each of the four unset fields is filled
from the looked-up film; a film without a slug is rejected. -/
theorem claim_C6_theorem (get : String → Except String Film) (film fullFilm : Film)
    (hslug : film.Slug ≠ "") (hget : get film.Slug = .ok fullFilm) :
    (∃ result : Film,
      EnhanceFilm get film = .ok result ∧
      result.Slug = film.Slug ∧
      result.Target = film.Target ∧
      (film.Title ≠ "" → result.Title = film.Title) ∧
      (film.Title = "" → result.Title = fullFilm.Title) ∧
      (film.Year ≠ 0 → result.Year = film.Year) ∧
      (film.Year = 0 → result.Year = fullFilm.Year) ∧
      (film.ID ≠ "" → result.ID = film.ID) ∧
      (film.ID = "" → result.ID = fullFilm.ID) ∧
      (film.ExternalIDs ≠ none → result.ExternalIDs = film.ExternalIDs) ∧
      (film.ExternalIDs = none → result.ExternalIDs = fullFilm.ExternalIDs)) ∧
    (∀ (g : String → Except String Film) (f : Film),
      f.Slug = "" → EnhanceFilm g f = .error "Film has no slug. Needs that to enhance") := by
  constructor
  · unfold EnhanceFilm
    rw [if_neg hslug, hget]
    refine ⟨_, rfl, ?_, ?_, ?_, ?_, ?_, ?_, ?_, ?_, ?_, ?_⟩ <;>
      by_cases hY : film.Year = 0 <;>
      by_cases hT : film.Title = "" <;>
      by_cases hE : film.ExternalIDs = none <;>
      by_cases hI : film.ID = "" <;>
      simp [hY, hT, hE, hI]
  · intro g f hf
    unfold EnhanceFilm
    rw [if_pos hf]

/-- Witness for claim C6: enhancing `filmC6` (title set, year, id and
external ids unset) with the lookup result `fullC6` keeps the caller
title and fills in exactly the unset fields. -/
theorem claim_C6_witness :
    (filmC6.Slug ≠ "" ∧ getC6 filmC6.Slug = .ok fullC6) ∧
    ((∃ result : Film,
      EnhanceFilm getC6 filmC6 = .ok result ∧
      result.Slug = filmC6.Slug ∧
      result.Target = filmC6.Target ∧
      (filmC6.Title ≠ "" → result.Title = filmC6.Title) ∧
      (filmC6.Title = "" → result.Title = fullC6.Title) ∧
      (filmC6.Year ≠ 0 → result.Year = filmC6.Year) ∧
      (filmC6.Year = 0 → result.Year = fullC6.Year) ∧
      (filmC6.ID ≠ "" → result.ID = filmC6.ID) ∧
      (filmC6.ID = "" → result.ID = fullC6.ID) ∧
      (filmC6.ExternalIDs ≠ none → result.ExternalIDs = filmC6.ExternalIDs) ∧
      (filmC6.ExternalIDs = none → result.ExternalIDs = fullC6.ExternalIDs)) ∧
    (∀ (g : String → Except String Film) (f : Film),
      f.Slug = "" → EnhanceFilm g f = .error "Film has no slug. Needs that to enhance")) :=
  ⟨⟨by decide, rfl⟩, claim_C6_theorem getC6 filmC6 fullC6 (by decide) rfl⟩

/-! ## Claim C9: filmography validation -/

theorem stringInSlice_iff (a : String) (l : List String) :
    StringInSlice a l = true ↔ a ∈ l := by
  unfold StringInSlice
  simp [List.any_eq_true]

/-- Claim C9: `Filmography` returns a validation error before any request
is constructed exactly when the person is empty, the profession is empty,
or the profession is outside `{actor, director, producer, writer}`;
otherwise validation succeeds and the request for
`baseURL/profession/person` is built. -/
theorem claim_C9_theorem (baseURL : String) (opt : FilmographyOpt) :
    ((∃ msg, Filmography baseURL opt = .invalid msg) ↔
      (opt.Person = "" ∨ opt.Profession = "" ∨
        opt.Profession ∉ GetFilmographyProfessions)) ∧
    ((Filmography baseURL opt
        = .requested (baseURL ++ "/" ++ opt.Profession ++ "/" ++ opt.Person)) ↔
      (opt.Person ≠ "" ∧ opt.Profession ≠ "" ∧
        opt.Profession ∈ GetFilmographyProfessions)) := by
  by_cases hP : opt.Person = "" <;>
    by_cases hPr : opt.Profession = "" <;>
    by_cases hm : opt.Profession ∈ GetFilmographyProfessions <;>
    simp [Filmography, FilmographyOpt.Validate, hP, hPr, hm,
      (stringInSlice_iff opt.Profession GetFilmographyProfessions)]

/-! ## Claim C10: page selection of the film List operation -/

/-- Counterexample to claim C10 as stated: with `PageCount = 1` (and any
reported total, here 59) the List operation requests only page 1 — one
page, not `count + 1 = 2` pages — because the remaining-page fetch is
guarded by `pageCount > 1`.  The `populateRemainingPages` half of the
claim does hold at this input: `[2]` is returned. -/
theorem claim_C10_counterexample :
    populateRemainingPages 1 59 false [] = [2] ∧
    filmListPagesRequested 1 59 = [1] ∧
    (filmListPagesRequested 1 59).length = 1 ∧
    (1 : Nat) ≠ 1 + 1 := by
  decide

/-- Claim C10, amended: for every `count ≥ 1`, `populateRemainingPages
count total false` is exactly the consecutive run `[2 .. count+1]` —
`count` pages, independent of `total`.  The List operation, however,
requests `count + 1` pages (page 1 plus pages `2 .. count+1`) only when
`count ≥ 2` and the first page reports at least 2 total pages; with
`count = 1` (or a single-page collection) only page 1 is requested.  When
`count + 1` exceeds the reported total, pages beyond the collection are
requested. -/
theorem claim_C10_amended (count total : Int) (h1 : 1 ≤ count) :
    populateRemainingPages count total false [] = makeRange 2 (count + 1) ∧
    populateRemainingPages count total false [] = populateRemainingPages count 0 false [] ∧
    (makeRange 2 (count + 1)).length = count.toNat ∧
    (∀ p : Int, p ∈ makeRange 2 (count + 1) ↔ 2 ≤ p ∧ p ≤ count + 1) ∧
    (2 ≤ count → 2 ≤ total →
      filmListPagesRequested count total = 1 :: makeRange 2 (count + 1) ∧
      (filmListPagesRequested count total).length = count.toNat + 1 ∧
      (total < count + 1 → count + 1 ∈ filmListPagesRequested count total)) := by
  have hmem : ∀ p : Int, p ∈ makeRange 2 (count + 1) ↔ 2 ≤ p ∧ p ≤ count + 1 := by
    intro p
    unfold makeRange
    simp only [List.mem_map, List.mem_range]
    constructor
    · rintro ⟨i, hi, rfl⟩
      omega
    · intro hp
      exact ⟨(p - 2).toNat, by omega, by omega⟩
  have hlen : (makeRange 2 (count + 1)).length = count.toNat := by
    unfold makeRange
    rw [List.length_map, List.length_range]
    omega
  have hreq : 2 ≤ count → 2 ≤ total →
      filmListPagesRequested count total = 1 :: makeRange 2 (count + 1) := by
    intro h2 htot
    unfold filmListPagesRequested
    rw [max_eq_left (by omega : (1 : Int) ≤ count)]
    rw [if_pos ⟨by omega, by omega⟩]
    rfl
  refine ⟨rfl, rfl, hlen, hmem, fun h2 htot => ⟨hreq h2 htot, ?_, ?_⟩⟩
  · rw [hreq h2 htot, List.length_cons, hlen]
  · intro hlt
    rw [hreq h2 htot]
    exact List.mem_cons_of_mem 1 ((hmem (count + 1)).2 ⟨by omega, le_refl _⟩)

/-- Witness for claim C10 (amended): with `count = 3` and a collection of
2 total pages the operation requests pages `[1, 2, 3, 4]` — four pages,
including pages 3 and 4 beyond the collection. -/
theorem claim_C10_witness :
    (1 : Int) ≤ 3 ∧
    populateRemainingPages 3 2 false [] = makeRange 2 4 ∧
    (filmListPagesRequested 3 2 = 1 :: makeRange 2 4 ∧
      (filmListPagesRequested 3 2).length = (3 : Int).toNat + 1 ∧
      ((2 : Int) < 3 + 1 → (3 : Int) + 1 ∈ filmListPagesRequested 3 2)) :=
  ⟨by decide, (claim_C10_amended 3 2 (by decide)).1,
    (claim_C10_amended 3 2 (by decide)).2.2.2.2 (by decide) (by decide)⟩

/-! ## Counting helpers for the transition-system proofs -/

theorem countP_set_add {α : Type} (l : List α) (i : Nat) (a b : α) (p : α → Bool)
    (h : l[i]? = some b) :
    (l.set i a).countP p + (if p b then 1 else 0)
      = l.countP p + (if p a then 1 else 0) := by
  induction l generalizing i with
  | nil => simp at h
  | cons x xs ih =>
      cases i with
      | zero =>
          simp only [List.getElem?_cons_zero, Option.some.injEq] at h
          subst h
          simp only [List.set_cons_zero, List.countP_cons]
          cases hpa : p a <;> cases hpx : p x <;> simp <;> omega
      | succ n =>
          simp only [List.getElem?_cons_succ] at h
          have hx := ih n h
          simp only [List.set_cons_succ, List.countP_cons]
          cases hpx : p x <;> simp <;> omega

theorem countP_replicate {α : Type} (n : Nat) (a : α) (p : α → Bool) :
    (List.replicate n a).countP p = if p a then n else 0 := by
  induction n with
  | zero => simp
  | succ n ih =>
      rw [List.replicate_succ, List.countP_cons, ih]
      cases hpa : p a <;> simp

theorem one_le_countP_of_getElem {α : Type} (l : List α) (i : Nat) (b : α) (p : α → Bool)
    (h : l[i]? = some b) (hp : p b = true) : 1 ≤ l.countP p := by
  induction l generalizing i with
  | nil => simp at h
  | cons x xs ih =>
      cases i with
      | zero =>
          simp only [List.getElem?_cons_zero, Option.some.injEq] at h
          subst h
          simp [List.countP_cons, hp]
      | succ n =>
          simp only [List.getElem?_cons_succ] at h
          have := ih n h
          rw [List.countP_cons]
          omega

/-! ## Claim C1: the middle-page fan-out -/

theorem middle_tasks_length (client : Client) (totalPages : Int) (s : MiddleState)
    (h : MiddleReachable client totalPages s) :
    s.tasks.length = (totalPages - 2).toNat := by
  induction h with
  | refl => simp [middleInit]
  | tail hr hs ih =>
      cases hs with
      | start i hi => simpa [List.length_set] using ih
      | finish i hi => simpa [List.length_set] using ih

/-- Claim C1, amended: in every reachable state of the middle-page
fan-out, the number of fetches in flight is bounded only by the number of
middle pages, `totalPages - 2` (one goroutine per page, all allowed to
fetch at once); the configured `MaxConcurrentPages` limit is consulted by
no transition, so it imposes no bound — the claimed semaphore discipline
does not exist, and a 7-page collection stays under a limit of 5 only
because it has just 5 middle pages. -/
theorem claim_C1_amended (client : Client) (totalPages : Int) (s : MiddleState)
    (h : MiddleReachable client totalPages s) :
    inFlightCount s ≤ (totalPages - 2).toNat := by
  rw [← middle_tasks_length client totalPages s h]
  exact List.countP_le_length _

/-- Witness for claim C1 (amended): the initial state of a run over a
9-page collection with configured limit 5 is reachable and satisfies the
bound. -/
theorem claim_C1_witness :
    MiddleReachable ⟨5⟩ 9 (middleInit 9) ∧
    inFlightCount (middleInit 9) ≤ ((9 : Int) - 2).toNat :=
  ⟨Relation.ReflTransGen.refl,
    claim_C1_amended ⟨5⟩ 9 (middleInit 9) Relation.ReflTransGen.refl⟩

/-- Counterexample to claim C1 as stated: for a 9-page collection with a
configured concurrency limit of 5, the run reaches a state with 6
middle-page fetches simultaneously in flight — nothing in the code blocks
the sixth fetch, because the goroutine-per-page loop acquires no
semaphore and never reads `MaxConcurrentPages`. -/
theorem claim_C1_counterexample :
    MiddleReachable ⟨5⟩ 9
      ⟨[.inFlight, .inFlight, .inFlight, .inFlight, .inFlight, .inFlight, .ready]⟩ ∧
    (Client.mk 5).MaxConcurrentPages <
      (inFlightCount
        ⟨[.inFlight, .inFlight, .inFlight, .inFlight, .inFlight, .inFlight, .ready]⟩ : Int) := by
  constructor
  · have h0 : MiddleReachable ⟨5⟩ 9
        ⟨[.ready, .ready, .ready, .ready, .ready, .ready, .ready]⟩ := by
      have he : middleInit 9
          = ⟨[.ready, .ready, .ready, .ready, .ready, .ready, .ready]⟩ := by decide
      exact he ▸ Relation.ReflTransGen.refl
    have h1 : MiddleReachable ⟨5⟩ 9
        ⟨[.inFlight, .ready, .ready, .ready, .ready, .ready, .ready]⟩ :=
      h0.tail (MiddleStep.start _ 0 (by decide))
    have h2 : MiddleReachable ⟨5⟩ 9
        ⟨[.inFlight, .inFlight, .ready, .ready, .ready, .ready, .ready]⟩ :=
      h1.tail (MiddleStep.start _ 1 (by decide))
    have h3 : MiddleReachable ⟨5⟩ 9
        ⟨[.inFlight, .inFlight, .inFlight, .ready, .ready, .ready, .ready]⟩ :=
      h2.tail (MiddleStep.start _ 2 (by decide))
    have h4 : MiddleReachable ⟨5⟩ 9
        ⟨[.inFlight, .inFlight, .inFlight, .inFlight, .ready, .ready, .ready]⟩ :=
      h3.tail (MiddleStep.start _ 3 (by decide))
    have h5 : MiddleReachable ⟨5⟩ 9
        ⟨[.inFlight, .inFlight, .inFlight, .inFlight, .inFlight, .ready, .ready]⟩ :=
      h4.tail (MiddleStep.start _ 4 (by decide))
    exact h5.tail (MiddleStep.start _ 5 (by decide))
  · decide

/-! ## Claim C7: bounded, joined batch enhancement -/

theorem enhance_inv (n : Nat) (s : EnhanceListState) (h : EnhanceListReachable n s) :
    holdingCount s ≤ 5 ∧ s.wg = s.tasks.countP notExited := by
  induction h with
  | refl =>
      constructor
      · simp [enhanceListInit, holdingCount, countP_replicate, isHolding]
      · simp [enhanceListInit, countP_replicate, notExited]
  | @tail b c hr hs ih =>
      have h1 := ih.1
      have h2 := ih.2
      cases hs with
      | acquire i hi hlt =>
          have hc := countP_set_add b.tasks i EnhanceTask.holding EnhanceTask.spawned
            isHolding hi
          have hn := countP_set_add b.tasks i EnhanceTask.holding EnhanceTask.spawned
            notExited hi
          simp [isHolding, notExited] at hc hn
          dsimp only [holdingCount] at h1 hlt ⊢
          constructor <;> omega
      | release i hi =>
          have hc := countP_set_add b.tasks i EnhanceTask.released EnhanceTask.holding
            isHolding hi
          have hn := countP_set_add b.tasks i EnhanceTask.released EnhanceTask.holding
            notExited hi
          simp [isHolding, notExited] at hc hn
          dsimp only [holdingCount] at h1 ⊢
          constructor <;> omega
      | exit i hi =>
          have hc := countP_set_add b.tasks i EnhanceTask.exited EnhanceTask.released
            isHolding hi
          have hn := countP_set_add b.tasks i EnhanceTask.exited EnhanceTask.released
            notExited hi
          have hpos := one_le_countP_of_getElem b.tasks i EnhanceTask.released notExited hi rfl
          simp [isHolding, notExited] at hc hn
          dsimp only [holdingCount] at h1 ⊢
          constructor <;> omega

/-- Claim C7: in every reachable state of an `EnhanceFilmList` call, at
most 5 per-film enhancements run concurrently (the capacity of the
`guard` channel); once the WaitGroup counter reaches 0 — the condition on
which `wg.Wait()` lets the call return — every worker has run to
completion; and the call returns a nil error regardless of per-film
failures. -/
theorem claim_C7_theorem (n : Nat) (s : EnhanceListState)
    (h : EnhanceListReachable n s) :
    holdingCount s ≤ 5 ∧
    (s.wg = 0 → ∀ t ∈ s.tasks, t = EnhanceTask.exited) ∧
    enhanceFilmListResult = none := by
  obtain ⟨h1, h2⟩ := enhance_inv n s h
  refine ⟨h1, ?_, rfl⟩
  intro hwg t ht
  rw [hwg] at h2
  have hz := List.countP_eq_zero.mp h2.symm
  have hne := hz t ht
  cases t <;> simp [notExited] at hne ⊢

/-- Witness for claim C7: a full life cycle of one worker (acquire,
release, exit) over a two-film batch reaches the state
`⟨[exited, spawned], 1⟩`, which satisfies the bound and the join
property. -/
theorem claim_C7_witness :
    EnhanceListReachable 2 ⟨[.exited, .spawned], 1⟩ ∧
    (holdingCount ⟨[.exited, .spawned], 1⟩ ≤ 5 ∧
      ((EnhanceListState.mk [.exited, .spawned] 1).wg = 0 →
        ∀ t ∈ (EnhanceListState.mk [.exited, .spawned] 1).tasks, t = EnhanceTask.exited) ∧
      enhanceFilmListResult = none) := by
  have h0 : EnhanceListReachable 2 ⟨[.spawned, .spawned], 2⟩ := by
    have he : enhanceListInit 2 = ⟨[.spawned, .spawned], 2⟩ := by decide
    exact he ▸ Relation.ReflTransGen.refl
  have h1 : EnhanceListReachable 2 ⟨[.holding, .spawned], 2⟩ :=
    h0.tail (EnhanceListStep.acquire _ 0 (by decide) (by decide))
  have h2 : EnhanceListReachable 2 ⟨[.released, .spawned], 2⟩ :=
    h1.tail (EnhanceListStep.release _ 0 (by decide))
  have h3 : EnhanceListReachable 2 ⟨[.exited, .spawned], 1⟩ :=
    h2.tail (EnhanceListStep.exit _ 0 (by decide))
  exact ⟨h3, claim_C7_theorem 2 _ h3⟩

/-! ## Claims C2 and C3: terminal signalling of the collection streams -/

theorem doneSignals_nil : doneSignals [] = [] := rfl

theorem doneSignals_cons_fetch (p : Int) (l : List StreamEvent) :
    doneSignals (.fetch p :: l) = doneSignals l := rfl

theorem doneSignals_cons_item (f : Film) (l : List StreamEvent) :
    doneSignals (.itemSend f :: l) = doneSignals l := rfl

theorem doneSignals_cons_done (e : Option String) (l : List StreamEvent) :
    doneSignals (.doneSend e :: l) = e :: doneSignals l := rfl

theorem doneSignals_append (l1 l2 : List StreamEvent) :
    doneSignals (l1 ++ l2) = doneSignals l1 ++ doneSignals l2 :=
  List.filterMap_append l1 l2 _

theorem doneSignals_itemSends (fs : List Film) :
    doneSignals (fs.map .itemSend) = [] := by
  induction fs with
  | nil => rfl
  | cons f fs ih => rw [List.map_cons, doneSignals_cons_item, ih]

theorem doneSignals_middle (fetchPage : Int → FetchResult) (totalPages : Int) :
    doneSignals (middlePageEvents fetchPage totalPages) = [] := by
  unfold middlePageEvents
  generalize makeRange 2 (totalPages - 1) = pages
  induction pages with
  | nil => rfl
  | cons i ps ih =>
      rw [List.flatMap_cons, doneSignals_append, ih, List.append_nil]
      cases hf : fetchPage i with
      | error e => rfl
      | ok r =>
          show doneSignals (.fetch i :: r.1.map .itemSend) = []
          rw [doneSignals_cons_fetch]
          exact doneSignals_itemSends r.1

theorem getLast?_append_singleton (l : List StreamEvent) (x : StreamEvent) :
    (l ++ [x]).getLast? = some x :=
  List.getLast?_concat _

theorem relay_itemSends (fs : List Film) :
    ∀ ev ∈ fs.map StreamEvent.itemSend, relayEvent ev = true := by
  intro ev hev
  rw [List.mem_map] at hev
  obtain ⟨f, _, rfl⟩ := hev
  rfl

theorem relay_middle (fetchPage : Int → FetchResult) (totalPages : Int) :
    ∀ ev ∈ middlePageEvents fetchPage totalPages, relayEvent ev = true := by
  intro ev hev
  unfold middlePageEvents at hev
  rw [List.mem_flatMap] at hev
  obtain ⟨i, _, hev⟩ := hev
  rw [List.mem_cons] at hev
  rcases hev with rfl | hev
  · rfl
  · cases hf : fetchPage i with
    | error e => rw [hf] at hev; simp at hev
    | ok r =>
        rw [hf] at hev
        exact relay_itemSends r.1 ev hev

theorem doneSignals_of_relay (l : List StreamEvent)
    (h : ∀ ev ∈ l, relayEvent ev = true) : doneSignals l = [] := by
  induction l with
  | nil => rfl
  | cons ev rest ih =>
      have hev := h ev (List.mem_cons_self ev rest)
      have hrest := ih (fun e he => h e (List.mem_cons_of_mem ev he))
      cases ev with
      | fetch p => rw [doneSignals_cons_fetch]; exact hrest
      | itemSend f => rw [doneSignals_cons_item]; exact hrest
      | doneSend e => simp [relayEvent] at hev
      | panicked => simp [relayEvent] at hev

theorem loopFilmC_relay_append (l : List StreamEvent)
    (h : ∀ ev ∈ l, relayEvent ev = true) :
    loopFilmC (l ++ [StreamEvent.doneSend none]) = l := by
  induction l with
  | nil => rfl
  | cons ev rest ih =>
      have hev := h ev (List.mem_cons_self ev rest)
      have hrest := ih (fun e he => h e (List.mem_cons_of_mem ev he))
      cases ev with
      | fetch p =>
          show StreamEvent.fetch p :: loopFilmC (rest ++ [StreamEvent.doneSend none]) = _
          rw [hrest]
      | itemSend f =>
          show StreamEvent.itemSend f :: loopFilmC (rest ++ [StreamEvent.doneSend none]) = _
          rw [hrest]
      | doneSend e => simp [relayEvent] at hev
      | panicked => simp [relayEvent] at hev

/-- The two facts of a clean trace `pre ++ [done nil]` over relay-only
events: its terminal signals are exactly one nil, and that nil is the
final event (hence after every item send). -/
theorem clean_trace_signals (pre : List StreamEvent)
    (h : ∀ ev ∈ pre, relayEvent ev = true) :
    doneSignals (pre ++ [StreamEvent.doneSend none]) = [none] ∧
    (pre ++ [StreamEvent.doneSend none]).getLast? = some (.doneSend none) :=
  ⟨by rw [doneSignals_append, doneSignals_of_relay pre h]; rfl,
    getLast?_append_singleton pre _⟩

/-- A clean `StreamWatched` run splits as a relay-only prefix followed by
the single deferred nil. -/
theorem streamWatched_clean_split (fp : Int → FetchResult) (h : CleanFetcher fp) :
    ∃ pre, StreamWatched fp = pre ++ [StreamEvent.doneSend none] ∧
      ∀ ev ∈ pre, relayEvent ev = true := by
  obtain ⟨films, pag, h1, hlast⟩ := h
  unfold StreamWatched
  rw [h1]
  dsimp only
  by_cases htp1 : pag.TotalPages > 1
  · obtain ⟨⟨lastFilms, lp⟩, hr⟩ := hlast htp1
    rw [if_pos htp1, hr]
    dsimp only
    by_cases htp2 : pag.TotalPages > 2
    · rw [if_pos htp2]
      refine ⟨.fetch 1 ::
        ((films.map .itemSend ++ (.fetch pag.TotalPages :: lastFilms.map .itemSend))
          ++ middlePageEvents fp pag.TotalPages), by rw [List.cons_append], ?_⟩
      intro ev hev
      simp only [List.mem_cons, List.mem_append] at hev
      rcases hev with rfl | ⟨hev | rfl | hev⟩ | hev
      · rfl
      · exact relay_itemSends films ev hev
      · rfl
      · exact relay_itemSends lastFilms ev hev
      · exact relay_middle fp pag.TotalPages ev hev
    · rw [if_neg htp2]
      refine ⟨.fetch 1 ::
        ((films.map .itemSend ++ (.fetch pag.TotalPages :: lastFilms.map .itemSend))
          ++ []), by rw [List.cons_append], ?_⟩
      intro ev hev
      simp only [List.mem_cons, List.mem_append, List.not_mem_nil, or_false] at hev
      rcases hev with rfl | hev | rfl | hev
      · rfl
      · exact relay_itemSends films ev hev
      · rfl
      · exact relay_itemSends lastFilms ev hev
  · rw [if_neg htp1]
    have htp2 : ¬ pag.TotalPages > 2 := by omega
    rw [if_neg htp2]
    refine ⟨.fetch 1 :: ((films.map .itemSend ++ []) ++ []), by rw [List.cons_append], ?_⟩
    intro ev hev
    simp only [List.mem_cons, List.mem_append, List.not_mem_nil, or_false] at hev
    rcases hev with rfl | hev
    · rfl
    · exact relay_itemSends films ev hev

theorem diaryMiddleEvents_ok (fp : Int → FetchResult) (pages : List Int)
    (h : ∀ i ∈ pages, ∃ r, fp i = Except.ok r) :
    (diaryMiddleEvents fp pages).2 = false ∧
    ∀ ev ∈ (diaryMiddleEvents fp pages).1, relayEvent ev = true := by
  induction pages with
  | nil =>
      refine ⟨rfl, ?_⟩
      intro ev hev
      simp [diaryMiddleEvents] at hev
  | cons i rest ih =>
      obtain ⟨⟨entries, p⟩, hfp⟩ := h i (List.mem_cons_self i rest)
      have ihr := ih (fun j hj => h j (List.mem_cons_of_mem i hj))
      constructor
      · show (diaryMiddleEvents fp (i :: rest)).2 = false
        unfold diaryMiddleEvents
        rw [hfp]
        exact ihr.1
      · intro ev hev
        unfold diaryMiddleEvents at hev
        rw [hfp] at hev
        dsimp only at hev
        rw [List.mem_cons] at hev
        rcases hev with rfl | hev
        · rfl
        · rw [List.mem_append] at hev
          rcases hev with hev | hev
          · exact relay_itemSends entries ev hev
          · exact ihr.2 ev hev

/-- A clean `StreamDiary` run (page 1, last page and every middle page
fetch succeed, middle failures being fatal panics in the diary stream)
splits as a relay-only prefix followed by the single deferred nil. -/
theorem streamDiary_clean_split (fp : Int → FetchResult) (films : List Film)
    (pag : Pagination)
    (h1 : fp 1 = Except.ok (films, pag))
    (hlast : 1 < pag.TotalPages → ∃ r, fp pag.TotalPages = Except.ok r)
    (hmid : ∀ i ∈ makeRange 2 (pag.TotalPages - 1), ∃ r, fp i = Except.ok r) :
    ∃ pre, StreamDiary fp = pre ++ [StreamEvent.doneSend none] ∧
      ∀ ev ∈ pre, relayEvent ev = true := by
  unfold StreamDiary
  rw [h1]
  dsimp only
  by_cases htp1 : pag.TotalPages > 1
  · obtain ⟨⟨lastEntries, lp⟩, hr⟩ := hlast htp1
    rw [if_pos htp1, hr]
    dsimp only
    by_cases htp2 : pag.TotalPages > 2
    · rw [if_pos htp2]
      have hm := diaryMiddleEvents_ok fp (makeRange 2 (pag.TotalPages - 1)) hmid
      rw [hm.1, if_neg (by decide : ¬ (false = true))]
      refine ⟨.fetch 1 ::
        (films.map .itemSend ++ (.fetch pag.TotalPages ::
          (lastEntries.map .itemSend
            ++ (diaryMiddleEvents fp (makeRange 2 (pag.TotalPages - 1))).1))), ?_, ?_⟩
      · simp [List.cons_append, List.append_assoc]
      · intro ev hev
        simp only [List.mem_cons, List.mem_append] at hev
        rcases hev with rfl | hev | rfl | hev | hev
        · rfl
        · exact relay_itemSends films ev hev
        · rfl
        · exact relay_itemSends lastEntries ev hev
        · exact hm.2 ev hev
    · rw [if_neg htp2]
      refine ⟨.fetch 1 ::
        (films.map .itemSend ++ (.fetch pag.TotalPages ::
          lastEntries.map .itemSend)), ?_, ?_⟩
      · simp [List.cons_append, List.append_assoc]
      · intro ev hev
        simp only [List.mem_cons, List.mem_append] at hev
        rcases hev with rfl | hev | rfl | hev
        · rfl
        · exact relay_itemSends films ev hev
        · rfl
        · exact relay_itemSends lastEntries ev hev
  · rw [if_neg htp1]
    have htp2 : ¬ pag.TotalPages > 2 := by omega
    rw [if_neg htp2]
    refine ⟨.fetch 1 :: films.map .itemSend, by rw [List.cons_append], ?_⟩
    intro ev hev
    rw [List.mem_cons] at hev
    rcases hev with rfl | hev
    · rfl
    · exact relay_itemSends films ev hev

theorem relay_flatMap_loop (fps : List (Int → FetchResult))
    (h : ∀ fp ∈ fps, CleanFetcher fp) :
    ∀ ev ∈ fps.flatMap (fun fp => loopFilmC (StreamWatched fp)),
      relayEvent ev = true := by
  intro ev hev
  rw [List.mem_flatMap] at hev
  obtain ⟨fp, hfp, hev⟩ := hev
  obtain ⟨pre, hsplit, hrelay⟩ := streamWatched_clean_split fp (h fp hfp)
  rw [hsplit, loopFilmC_relay_append pre hrelay] at hev
  exact hrelay ev hev

/-- Claim C2, amended: on fully successful runs, every one of the five
streaming operations keeps the invariant — exactly one terminal signal, a
single nil, sent on the completion channel as the final event, after
every item send.  Concretely: `StreamWatched` (one skeleton with
`StreamList` and `StreamWatchList`) needs the page-1 and last-page
fetches to succeed (middle failures are silently dropped);
`StreamDiary` needs every fetched page to succeed (its middle-page
failures panic instead of being dropped); `StreamBatch` needs each of its
sub-streams to run cleanly.  On failing runs the invariant does not hold:
`done <- err` is not followed by a return, so the forwarded error is
later followed by the deferred nil — two terminal signals, the first
preceding the remaining item sends — which is what the counterexample
exhibits. -/
theorem claim_C2_amended :
    (∀ fp : Int → FetchResult, CleanFetcher fp →
      doneSignals (StreamWatched fp) = [none] ∧
      (StreamWatched fp).getLast? = some (.doneSend none)) ∧
    (∀ (fp : Int → FetchResult) (films : List Film) (pag : Pagination),
      fp 1 = Except.ok (films, pag) →
      (1 < pag.TotalPages → ∃ r, fp pag.TotalPages = Except.ok r) →
      (∀ i ∈ makeRange 2 (pag.TotalPages - 1), ∃ r, fp i = Except.ok r) →
      doneSignals (StreamDiary fp) = [none] ∧
      (StreamDiary fp).getLast? = some (.doneSend none)) ∧
    (∀ watched lists watchlists : List (Int → FetchResult),
      (∀ fp, (fp ∈ watched ∨ fp ∈ lists ∨ fp ∈ watchlists) → CleanFetcher fp) →
      doneSignals (StreamBatch watched lists watchlists) = [none] ∧
      (StreamBatch watched lists watchlists).getLast? = some (.doneSend none)) := by
  refine ⟨?_, ?_, ?_⟩
  · intro fp h
    obtain ⟨pre, hsplit, hrelay⟩ := streamWatched_clean_split fp h
    rw [hsplit]
    exact clean_trace_signals pre hrelay
  · intro fp films pag h1 hlast hmid
    obtain ⟨pre, hsplit, hrelay⟩ := streamDiary_clean_split fp films pag h1 hlast hmid
    rw [hsplit]
    exact clean_trace_signals pre hrelay
  · intro watched lists watchlists h
    unfold StreamBatch
    have hw := relay_flatMap_loop watched (fun fp hfp => h fp (Or.inl hfp))
    have hl := relay_flatMap_loop lists (fun fp hfp => h fp (Or.inr (Or.inl hfp)))
    have hwl := relay_flatMap_loop watchlists (fun fp hfp => h fp (Or.inr (Or.inr hfp)))
    have hpre : ∀ ev ∈
        (watched.flatMap (fun fp => loopFilmC (StreamWatched fp))
          ++ lists.flatMap (fun fp => loopFilmC (StreamWatched fp)))
          ++ watchlists.flatMap (fun fp => loopFilmC (StreamWatched fp)),
        relayEvent ev = true := by
      intro ev hev
      simp only [List.mem_append] at hev
      rcases hev with (hev | hev) | hev
      · exact hw ev hev
      · exact hl ev hev
      · exact hwl ev hev
    exact clean_trace_signals _ hpre

/-- Witness for claim C2 (amended): the clean single-page fetcher
`fetchC2w`, run standalone as a watched stream, as a diary stream, and as
the single entry of a batch, each time sending exactly one terminal nil
as the final event. -/
theorem claim_C2_witness :
    (doneSignals (StreamWatched fetchC2w) = [none] ∧
      (StreamWatched fetchC2w).getLast? = some (.doneSend none)) ∧
    (doneSignals (StreamDiary fetchC2w) = [none] ∧
      (StreamDiary fetchC2w).getLast? = some (.doneSend none)) ∧
    (doneSignals (StreamBatch [fetchC2w] [] []) = [none] ∧
      (StreamBatch [fetchC2w] [] []).getLast? = some (.doneSend none)) := by
  have hclean : CleanFetcher fetchC2w :=
    ⟨[{ Title := "w" }], { CurrentPage := 1, NextPage := 1, TotalPages := 1, IsLast := true },
      rfl, fun htp => absurd htp (by decide)⟩
  obtain ⟨c1, c2, c3⟩ := claim_C2_amended
  refine ⟨c1 fetchC2w hclean, ?_, ?_⟩
  · exact c2 fetchC2w [{ Title := "w" }]
      { CurrentPage := 1, NextPage := 1, TotalPages := 1, IsLast := true }
      rfl (fun htp => absurd htp (by decide))
      (by intro i hi; simp [makeRange] at hi)
  · exact c3 [fetchC2w] [] [] (fun fp hfp => by
      rcases hfp with hfp | hfp | hfp
      · rw [List.mem_singleton] at hfp
        rw [hfp]
        exact hclean
      · simp at hfp
      · simp at hfp)

/-- Counterexample to claim C2 as stated: with the fetcher `fetchC2`
(3-page collection whose last page fails to fetch) the run sends TWO
terminal signals — the forwarded error, then the deferred nil — and the
middle-page item send happens after the first terminal signal, because
`done <- err` is not followed by a return. -/
theorem claim_C2_counterexample :
    StreamWatched fetchC2
      = [.fetch 1, .itemSend { Title := "a" }, .fetch 3, .doneSend (some "boom"),
         .fetch 2, .itemSend { Title := "b" }, .doneSend none] ∧
    doneSignals (StreamWatched fetchC2) = [some "boom", none] ∧
    (doneSignals (StreamWatched fetchC2)).length = 2 ∧
    (StreamWatched fetchC2)[3]? = some (.doneSend (some "boom")) ∧
    (StreamWatched fetchC2)[5]? = some (.itemSend { Title := "b" }) := by
  refine ⟨?_, ?_, ?_, ?_, ?_⟩ <;> rfl

/-- Claim C3, amended: when the synchronous fetch of page 1 fails, no item
is ever sent and no page other than page 1 is fetched in any collection
stream — but the promised terminal error is signalled only by
`StreamWatched` (and the structurally identical `StreamList` and
`StreamWatchList`), where the run then dies on the nil-pagination
dereference with the deferred nil also sent.  In `StreamDiary` the fetch
helper panics on the deferred close of the nil response before the error
send is reached, so the only terminal signal of the failed diary run is
the deferred nil. -/
theorem claim_C3_amended (fetchPage : Int → FetchResult) (e : String)
    (h : fetchPage 1 = .error e) :
    (StreamWatched fetchPage
        = [.fetch 1, .doneSend (some e), .doneSend none, .panicked] ∧
      .doneSend (some e) ∈ StreamWatched fetchPage ∧
      (∀ f : Film, .itemSend f ∉ StreamWatched fetchPage) ∧
      (∀ p : Int, .fetch p ∈ StreamWatched fetchPage → p = 1)) ∧
    (StreamDiary fetchPage = [.fetch 1, .doneSend none, .panicked] ∧
      doneSignals (StreamDiary fetchPage) = [none] ∧
      (∀ f : Film, .itemSend f ∉ StreamDiary fetchPage) ∧
      (∀ p : Int, .fetch p ∈ StreamDiary fetchPage → p = 1)) := by
  have ht : StreamWatched fetchPage
      = [.fetch 1, .doneSend (some e), .doneSend none, .panicked] := by
    unfold StreamWatched
    rw [h]
  have hd : StreamDiary fetchPage = [.fetch 1, .doneSend none, .panicked] := by
    unfold StreamDiary
    rw [h]
  refine ⟨⟨ht, ?_, ?_, ?_⟩, ⟨hd, ?_, ?_, ?_⟩⟩
  · rw [ht]
    simp
  · intro f
    rw [ht]
    simp
  · intro p hp
    rw [ht] at hp
    simp only [List.mem_cons, List.not_mem_nil, or_false] at hp
    rcases hp with hp | hp | hp | hp <;> simp_all
  · rw [hd]
    rfl
  · intro f
    rw [hd]
    simp
  · intro p hp
    rw [hd] at hp
    simp only [List.mem_cons, List.not_mem_nil, or_false] at hp
    rcases hp with hp | hp | hp <;> simp_all

/-- Counterexample to claim C3 as stated: for the diary stream — one of
the collection streams the claim quantifies over — a failing page-1 fetch
produces NO terminal error: the fetch helper panics on the deferred close
of the nil response before `done <- err` is reached, and the only signal
sent on the completion channel is the deferred nil. -/
theorem claim_C3_counterexample :
    StreamDiary fetchC3 = [.fetch 1, .doneSend none, .panicked] ∧
    doneSignals (StreamDiary fetchC3) = [none] ∧
    doneSignals (StreamDiary fetchC3) ≠ [some "nope"] ∧
    (doneSignals (StreamDiary fetchC3)).length = 1 := by
  refine ⟨?_, ?_, ?_, ?_⟩ <;> first | rfl | decide

/-- Witness for claim C3 (amended): the always-failing fetcher `fetchC3`. -/
theorem claim_C3_witness :
    fetchC3 1 = .error "nope" ∧
    ((StreamWatched fetchC3
        = [.fetch 1, .doneSend (some "nope"), .doneSend none, .panicked] ∧
      .doneSend (some "nope") ∈ StreamWatched fetchC3 ∧
      (∀ f : Film, .itemSend f ∉ StreamWatched fetchC3) ∧
      (∀ p : Int, .fetch p ∈ StreamWatched fetchC3 → p = 1)) ∧
    (StreamDiary fetchC3 = [.fetch 1, .doneSend none, .panicked] ∧
      doneSignals (StreamDiary fetchC3) = [none] ∧
      (∀ f : Film, .itemSend f ∉ StreamDiary fetchC3) ∧
      (∀ p : Int, .fetch p ∈ StreamDiary fetchC3 → p = 1))) :=
  ⟨rfl, claim_C3_amended fetchC3 "nope" rfl⟩

end Letterboxd
